import Mathlib

/-!
Verification of the liquid template engine core (the `for` block and the
top-level parse entry point) against its natural-language specification.

The repository ships two source files, `src/lib.rs` and
`src/tags/for_block.rs`.  Those are embedded directly.  The modules they
use (lexer, parser, template, context, value, error) are declared by the
repository but their code is not present; where a definition below stands
for one of them it is modelled from the specification and its doc comment
starts with "Modelled from the spec:".

Conventions of the embedding:
* Rust `Result<T, Error>` becomes `Except Error T`.
* A Rust method taking `&mut Context` becomes a Lean function
  `Context → α × Context` returning the result together with the final
  context, so that mutation (also mutation that happened before a failure)
  is observable.
* `HashMap` registries and the `Context` map become association lists with
  overwrite-on-insert semantics.
* The boxed constructor closures stored in the registries are
  defunctionalised: a registry entry is a tag naming the constructor
  (builtin or user-registered), since Rust closures cannot be stored and
  compared in a shallow embedding.
* `f32` is modelled as `Rat`, exact on every number the claims mention.
-/

/-- Modelled from the spec: the runtime value type of `value.rs` (not under
`src/`): a tagged union Nil, Bool, Num (floating point, modelled as `Rat`),
Str, Array (spec section 3). -/
inductive Value where
  | Nil : Value
  | Bool (b : Bool) : Value
  | Num (n : Rat) : Value
  | Str (s : String) : Value
  | Array (elems : List Value) : Value

/-- Modelled from the spec: the error type of `error.rs` (not under `src/`),
following the three-kind taxonomy of spec section 7; `for_block.rs` uses the
`Error::Render` and `Error::Parser` constructors with a message string. -/
inductive Error where
  | Lexer (msg : String) : Error
  | Parser (msg : String) : Error
  | Render (msg : String) : Error
deriving DecidableEq

/-- Modelled from the spec: `Context` of `context.rs` (not under `src/`): a
single flat mutable mapping from variable name to `Value` (spec section 3),
modelled as an association list. -/
def Context := List (String × Value)

/-- Modelled from the spec: `Context::get_val` returns the value bound to a
name, if any. -/
def Context.get_val (c : Context) (k : String) : Option Value :=
  match c with
  | [] => none
  | (k', v) :: rest => if k' == k then some v else Context.get_val rest k

/-- Modelled from the spec: `Context::set_val` inserts or overwrites a
binding unconditionally. -/
def Context.set_val (c : Context) (k : String) (v : Value) : Context :=
  match c with
  | [] => [(k, v)]
  | (k', v') :: rest =>
      if k' == k then (k, v) :: rest else (k', v') :: Context.set_val rest k v

/-- Modelled from the spec: the lexical `Token` type of `lexer.rs` (not
under `src/`): identifiers, literals and punctuation (spec section 3).
`for_block.rs` matches on `Token::Identifier`. -/
inductive Token where
  | Identifier (s : String) : Token
  | StringLiteral (s : String) : Token
  | NumberLiteral (n : Rat) : Token
  | Pipe : Token
  | Dot : Token
  | Colon : Token
deriving DecidableEq

/-- Modelled from the spec: the structural `Element` type of `lexer.rs`
(not under `src/`): literal text span, expression span, tag span, or block
span carrying its raw unparsed inner element sequence (spec section 3). -/
inductive Element where
  | raw (text : String) : Element
  | expression (tokens : List Token) : Element
  | tag (name : String) (tokens : List Token) : Element
  | block (name : String) (tokens : List Token) (inner : List Element) : Element

/-- Modelled from the spec: the Rust derive-Debug rendering of a `Token`,
as interpolated by the parser error messages of `for_block.rs`. -/
def debugToken : Token → String
  | .Identifier s => "Identifier(\"" ++ s ++ "\")"
  | .StringLiteral s => "StringLiteral(\"" ++ s ++ "\")"
  | .NumberLiteral n =>
      "NumberLiteral(" ++
        (if n.den == 1 then toString n.num ++ ".0"
         else toString n.num ++ "/" ++ toString n.den) ++ ")"
  | .Pipe => "Pipe"
  | .Dot => "Dot"
  | .Colon => "Colon"

/-- Modelled from the spec: the Rust derive-Debug rendering of a `Value`,
as interpolated by the render error message of `get_array`.  The `Array`
case is abbreviated: `get_array` only ever formats a value that is not an
`Array`, so that case is unreachable in every statement below.  The
non-integral `Num` case is likewise never exercised by the claims. -/
def debugValue : Value → String
  | .Nil => "Nil"
  | .Bool b => "Bool(" ++ toString b ++ ")"
  | .Num n =>
      "Num(" ++
        (if n.den == 1 then toString n.num ++ ".0"
         else toString n.num ++ "/" ++ toString n.den) ++ ")"
  | .Str s => "Str(\"" ++ s ++ "\")"
  | .Array _ => "Array(..)"

/-- Modelled from the spec: the Rust derive-Debug rendering of the
`Option` returned by `Context::get_val`, used in the `get_array` error. -/
def debugOptValue : Option Value → String
  | none => "None"
  | some v => "Some(" ++ debugValue v ++ ")"

/-- The renderable-tree node type.  `text` embeds the literal-text node of
`text.rs`, `output` the single-identifier interpolation node of
`output.rs`/`variable.rs`, `comment` the comment block, and `forN` embeds
the `For` struct of `for_block.rs` (fields `var_name`, `array_id`,
`inner`); `unmodelled` is the placeholder for constructors that live
outside `src/` and outside every claim (raw and if blocks, user-registered
tags and blocks), rendering no output. -/
inductive Node where
  | text (s : String) : Node
  | output (id : String) : Node
  | comment : Node
  | unmodelled : Node
  | forN (var_name array_id : String) (inner : List Node) : Node

/-- Modelled from the spec: stringification of a `Value` for output
(spec section 3): a `Num` with integral magnitude drops the trailing
fractional zero (22.0 renders as "22").  The `Bool`, `Nil` and `Array`
cases are never exercised by the claims. -/
def renderValue : Value → String
  | .Nil => ""
  | .Bool b => toString b
  | .Num q =>
      if q.den == 1 then toString q.num
      else toString q.num ++ "/" ++ toString q.den
  | .Str s => s
  | .Array _ => ""

/-- Embeds `get_array` of `for_block.rs` (lines 22-27): the value bound to
`array_id` must be an `Array`, whose elements are cloned; any other
binding (including an unset name) is a render error interpolating the
Debug form of the offending `Option` value. -/
def get_array (context : Context) (array_id : String) : Except Error (List Value) :=
  match context.get_val array_id with
  | some (Value.Array x) => .ok x
  | x => .error (.Render ("Tried to iterate over " ++ debugOptValue x ++
      ", which is not supported."))

/-- The iteration of `For::render` (for_block.rs lines 32-36), hoisted out
of the mutual recursion: `body` is the render function of the pre-parsed
inner template.  Each step binds the loop variable to the current element
with `set_val`, renders the body against the updated context, propagates a
body failure together with the context the failing body invocation left
behind, and otherwise appends the body output (empty text when the body
produced none) to the accumulator. -/
def forLoopGo (body : Context → (Except Error (Option String)) × Context)
    (var_name : String) (arr : List Value) (ctx : Context) :
    (Except Error String) × Context :=
  match arr with
  | [] => (.ok "", ctx)
  | i :: rest =>
      let ctx1 := ctx.set_val var_name i
      match body ctx1 with
      | (.error e, c') => (.error e, c')
      | (.ok s, c') =>
        match forLoopGo body var_name rest c' with
        | (.error e, c'') => (.error e, c'')
        | (.ok s2, c'') => (.ok (s.getD "" ++ s2), c'')

mutual
/-- Render dispatch for a single node.  The `forN` case embeds
`For::render` of `for_block.rs` (lines 29-39): fetch the array with
`get_array` (failing without touching the context otherwise), then run the
iteration and wrap the accumulator in `Some`.  The `text`, `output` and
`comment` cases are modelled from the spec (their sources are not under
`src/`): literal text renders verbatim, an interpolation resolves its
identifier in the context and stringifies the value (rendering no output
on an unset name, a choice the spec leaves open and no claim touches), a
comment renders no output. -/
def renderNode : Node → Context → (Except Error (Option String)) × Context
  | .text s, ctx => (.ok (some s), ctx)
  | .output id, ctx =>
      match ctx.get_val id with
      | some v => (.ok (some (renderValue v)), ctx)
      | none => (.ok none, ctx)
  | .comment, ctx => (.ok none, ctx)
  | .unmodelled, ctx => (.ok none, ctx)
  | .forN v a inner, ctx =>
      match get_array ctx a with
      | .error e => (.error e, ctx)
      | .ok arr =>
        match forLoopGo (renderTmpl inner) v arr ctx with
        | (.error e, c') => (.error e, c')
        | (.ok s, c') => (.ok (some s), c')

/-- Modelled from the spec: `Template::render` of `template.rs` (not under
`src/`): walk the nodes in order, threading the one context through every
node, concatenating the non-empty outputs, failing fast on the first
failing node (spec sections 3 and 7). -/
def renderTmpl : List Node → Context → (Except Error (Option String)) × Context
  | [], ctx => (.ok (some ""), ctx)
  | n :: rest, ctx =>
      match renderNode n ctx with
      | (.error e, c') => (.error e, c')
      | (.ok s, c') =>
        match renderTmpl rest c' with
        | (.error e, c'') => (.error e, c'')
        | (.ok s2, c'') => (.ok (some (s.getD "" ++ s2.getD "")), c'')
end

/-- Modelled from the spec: the `ErrorMode` enum of `lib.rs` (lines 58-66),
declared but given no runtime effect ("This currently does not have an
effect, until ErrorModes are properly implemented"). -/
inductive ErrorMode where
  | Strict : ErrorMode
  | Warn : ErrorMode
  | Lax : ErrorMode
deriving DecidableEq

/-- The defunctionalised content of a block-registry entry: either one of
the four built-in block constructors inserted by `liquid::parse`
(lib.rs lines 142-145), or a user-registered constructor identified by a
label (the boxed Rust closure itself cannot be carried by the shallow
embedding). -/
inductive BlockRef where
  | builtinRaw : BlockRef
  | builtinIf : BlockRef
  | builtinFor : BlockRef
  | builtinComment : BlockRef
  | user (label : String) : BlockRef
deriving DecidableEq

/-- The defunctionalised content of a tag-registry entry (always
user-registered; no built-in tags are inserted). -/
inductive TagRef where
  | user (label : String) : TagRef
deriving DecidableEq

/-- Lookup in an association-list registry (first binding wins, as in a
`HashMap` holding at most one binding per key). -/
def assocLookup {α : Type} (m : List (String × α)) (k : String) : Option α :=
  match m with
  | [] => none
  | (k', v) :: rest => if k' == k then some v else assocLookup rest k

/-- Insert-or-overwrite in an association-list registry, the `HashMap
insert` of lib.rs. -/
def assocInsert {α : Type} (m : List (String × α)) (k : String) (v : α) :
    List (String × α) :=
  match m with
  | [] => [(k, v)]
  | (k', v') :: rest =>
      if k' == k then (k, v) :: rest else (k', v') :: assocInsert rest k v

/-- Embeds `LiquidOptions` of lib.rs (lines 118-123): the block registry,
the tag registry and the inert error mode. -/
structure LiquidOptions where
  blocks : List (String × BlockRef)
  tags : List (String × TagRef)
  error_mode : ErrorMode

/-- The header validation of `for_block` (for_block.rs lines 50-64),
applied after the body parse it follows in the source: the first argument
token must be an identifier (the loop variable), the second the identifier
"in", the third an identifier (the source name); any token after the third
is never inspected, because the argument iterator is not advanced again.
Each failure is a parser error interpolating the Debug form of the
offending `Option` iterator item. -/
def forBlockHeader (arguments : List Token) (inner : List Node) :
    Except Error Node :=
  match arguments with
  | Token.Identifier x :: rest =>
      match rest with
      | t :: rest2 =>
          if t = Token.Identifier "in" then
            match rest2 with
            | Token.Identifier y :: _ => .ok (Node.forN x y inner)
            | t3 :: _ => .error (.Parser ("Expected an identifier, found Some(" ++
                debugToken t3 ++ ")"))
            | [] => .error (.Parser "Expected an identifier, found None")
          else
            .error (.Parser ("Expected \x27in\x27, found Some(" ++ debugToken t ++ ")"))
      | [] => .error (.Parser "Expected \x27in\x27, found None")
  | t :: _ => .error (.Parser ("Expected an identifier, found Some(" ++
      debugToken t ++ ")"))
  | [] => .error (.Parser "Expected an identifier, found None")

mutual
/-- Modelled from the spec: `parser::parse` of `parser.rs` (not under
`src/`): walk the elements in order, parse each through `parseElementCore`,
aborting on the first failure so that no partial tree is returned
(spec sections 4.2 and 7).  The parser consults nothing of the options
beyond the two registry maps, which it receives here directly (lib.rs
lines 58-60 declare the remaining `error_mode` field inert); the
`parseElements` wrapper below restores the source signature. -/
def parseCore : List Element → List (String × BlockRef) → List (String × TagRef) →
    Except Error (List Node)
  | [], _, _ => .ok []
  | e :: rest, blocks, tags =>
      match parseElementCore e blocks tags with
      | .error err => .error err
      | .ok n =>
        match parseCore rest blocks tags with
        | .error err => .error err
        | .ok ns => .ok (n :: ns)

/-- Modelled from the spec: the per-element dispatch of `parser.rs` (not
under `src/`, spec section 4.2): literal text becomes a verbatim node; an
expression holding a single identifier becomes an interpolation node
(property paths and filter pipelines belong to the out-of-scope filter
collaborator and are rejected by this model); a tag or block name is
dispatched through the registry, an unregistered name failing with a
descriptive error (spec section 8).  A block registered as `for` runs the
embedded `for_block` logic: the body is parsed first (for_block.rs
line 48), then the header is validated.  The remaining constructors
(raw, if, user entries) live outside `src/` and outside every claim and
produce the placeholder node, except `comment`, whose body the spec says
is discarded, rendering no output (spec section 4.6). -/
def parseElementCore : Element → List (String × BlockRef) → List (String × TagRef) →
    Except Error Node
  | .raw s, _, _ => .ok (.text s)
  | .expression tokens, _, _ =>
      match tokens with
      | [Token.Identifier x] => .ok (.output x)
      | _ => .error (.Parser "Expected a single identifier expression")
  | .tag name _, _, tags =>
      match assocLookup tags name with
      | none => .error (.Parser ("no such tag: " ++ name))
      | some _ => .ok .unmodelled
  | .block name arguments inner, blocks, tags =>
      match assocLookup blocks name with
      | none => .error (.Parser ("no such block: " ++ name))
      | some BlockRef.builtinFor =>
          match parseCore inner blocks tags with
          | .error err => .error err
          | .ok innerNodes => forBlockHeader arguments innerNodes
      | some BlockRef.builtinComment => .ok .comment
      | some BlockRef.builtinRaw => .ok .unmodelled
      | some BlockRef.builtinIf => .ok .unmodelled
      | some (BlockRef.user _) => .ok .unmodelled
end

/-- Modelled from the spec: the source signature of `parser::parse`, which
receives the whole `LiquidOptions`; only the two registry maps are
consulted. -/
def parseElements (elements : List Element) (options : LiquidOptions) :
    Except Error (List Node) :=
  parseCore elements options.blocks options.tags

/-- Embeds `for_block` of for_block.rs (lines 41-71): parse the nested
body through the parser first (line 48), then validate the three-token
header and build the `For` node.  Definitionally equal to the dispatch the
parser performs on a `for` block element. -/
def for_block (_tag_name : String) (arguments : List Token)
    (tokens : List Element) (options : LiquidOptions) : Except Error Node :=
  match parseElements tokens options with
  | .error err => .error err
  | .ok inner => forBlockHeader arguments inner

/-- Modelled from the spec: `lexer::tokenize` of `lexer.rs` (not under
`src/`).  Only its interface matters to the claims below (none of them
depends on how a concrete text is tokenized); it is modelled as
classifying the whole input as one literal-text element. -/
def tokenize (text : String) : Except Error (List Element) :=
  .ok [.raw text]

/-- The built-in insertion performed by `liquid::parse` (lib.rs lines
142-145): raw, if, for, comment, inserted in that order into the
caller-supplied block registry, overwriting same-named entries. -/
def insertBuiltins (options : LiquidOptions) : LiquidOptions :=
  { options with
    blocks :=
      assocInsert
        (assocInsert
          (assocInsert
            (assocInsert options.blocks "raw" BlockRef.builtinRaw)
            "if" BlockRef.builtinIf)
          "for" BlockRef.builtinFor)
        "comment" BlockRef.builtinComment }

/-- Embeds `liquid::parse` of lib.rs (lines 139-148): tokenize the text,
insert the four built-in block constructors into the options, then run the
parser with the resulting options.  (The `Template::new` wrapper of the
source is the identity on the node list here, `template.rs` being outside
`src/`.) -/
def liquid_parse (text : String) (options : LiquidOptions) :
    Except Error (List Node) :=
  match tokenize text with
  | .error e => .error e
  | .ok elements => parseElements elements (insertBuiltins options)

/-- Parse followed by render, the end-to-end pipeline used to state that
two option values produce observably identical behaviour. -/
def parseAndRender (text : String) (options : LiquidOptions) (ctx : Context) :
    Except Error ((Except Error (Option String)) × Context) :=
  match liquid_parse text options with
  | .error e => .error e
  | .ok nodes => .ok (renderTmpl nodes ctx)

/-- Setting a binding makes it the value subsequent lookups of that name
return. -/
theorem Context.get_set_self (c : Context) (k : String) (v : Value) :
    (c.set_val k v).get_val k = some v := by
  induction c with
  | nil => simp [Context.set_val, Context.get_val]
  | cons p rest ih =>
      by_cases hk : p.1 == k
      · simp [Context.set_val, Context.get_val, hk]
      · simp [Context.set_val, Context.get_val, hk, ih]

/-- An inserted registry key is found with its inserted value. -/
theorem assocLookup_insert_self {α : Type} (m : List (String × α)) (k : String) (v : α) :
    assocLookup (assocInsert m k v) k = some v := by
  induction m with
  | nil => simp [assocInsert, assocLookup]
  | cons p rest ih =>
      by_cases hk : p.1 == k
      · simp [assocInsert, assocLookup, hk]
      · simp [assocInsert, assocLookup, hk, ih]

/-- Inserting under one key leaves lookups of a different key unchanged. -/
theorem assocLookup_insert_ne {α : Type} (m : List (String × α)) (k k2 : String) (v : α)
    (hne : k ≠ k2) : assocLookup (assocInsert m k v) k2 = assocLookup m k2 := by
  induction m with
  | nil => simp [assocInsert, assocLookup, hne]
  | cons p rest ih =>
      obtain ⟨pk, pv⟩ := p
      by_cases hk : pk = k
      · subst hk
        simp [assocInsert, assocLookup, hne]
      · simp [assocInsert, assocLookup, hk, ih]

/-- Modelled from the spec: the lexer output for the body text
"test \x7b\x7bname\x7d\x7d " of the concrete scenario (spec section 8):
a literal-text span, an expression span holding the identifier `name`,
and a literal-text span. -/
def test_for_body : List Element :=
  [Element.raw "test ", Element.expression [Token.Identifier "name"], Element.raw " "]

/-- The default options of the concrete scenario: empty registries and the
default Warn error mode (lib.rs lines 68-72). -/
def test_for_options : LiquidOptions := ⟨[], [], ErrorMode.Warn⟩

/-- The context of the concrete scenario: `array` bound to the Array
holding Num 22, Num 23, Num 24 and Str "wat". -/
def test_for_data : Context :=
  Context.set_val [] "array"
    (Value.Array [Value.Num 22, Value.Num 23, Value.Num 24, Value.Str "wat"])

/-- Claim C1: constructing the for directive with loop variable `name` over
source identifier `array` and the body template of the concrete scenario
succeeds, and rendering it against a context binding `array` to the Array
holding Num 22, Num 23, Num 24, Str "wat" produces exactly the string
"test 22 test 23 test 24 test wat ". -/
theorem for_block_test_for_scenario :
    for_block "for"
        [Token.Identifier "name", Token.Identifier "in", Token.Identifier "array"]
        test_for_body test_for_options
      = .ok (Node.forN "name" "array"
          [Node.text "test ", Node.output "name", Node.text " "])
    ∧ (renderNode
        (Node.forN "name" "array"
          [Node.text "test ", Node.output "name", Node.text " "])
        test_for_data).1
      = .ok (some "test 22 test 23 test 24 test wat ") :=
  ⟨rfl, rfl⟩

/-- Claim C2: rendering a for directive whose source identifier is not
bound to an Array value (unset, or holding Nil, Bool, Num or Str) returns
a render error whose message interpolates the description of the offending
value, produces no output, and leaves the context unchanged. -/
theorem for_render_non_array_is_render_error (v a : String) (inner : List Node)
    (ctx : Context) (h : ∀ xs, ctx.get_val a ≠ some (Value.Array xs)) :
    renderNode (Node.forN v a inner) ctx =
      (.error (.Render ("Tried to iterate over " ++ debugOptValue (ctx.get_val a) ++
        ", which is not supported.")), ctx) := by
  have hga : get_array ctx a =
      .error (.Render ("Tried to iterate over " ++ debugOptValue (ctx.get_val a) ++
        ", which is not supported.")) := by
    unfold get_array
    cases hv : ctx.get_val a with
    | none => rfl
    | some val =>
      cases val with
      | Array xs => exact absurd hv (h xs)
      | Nil => rfl
      | Bool b => rfl
      | Num n => rfl
      | Str s => rfl
  simp [renderNode, hga]

/-- Witness for claim C2 at a concrete input: `array` bound to the string
"wat". -/
theorem for_render_non_array_is_render_error_witness :
    (∀ xs, Context.get_val [("array", Value.Str "wat")] "array"
      ≠ some (Value.Array xs))
    ∧ renderNode (Node.forN "name" "array" []) [("array", Value.Str "wat")] =
      (.error (.Render
        "Tried to iterate over Some(Str(\"wat\")), which is not supported."),
       [("array", Value.Str "wat")]) := by
  have h : ∀ xs, Context.get_val [("array", Value.Str "wat")] "array"
      ≠ some (Value.Array xs) := by
    intro xs hc
    simp [Context.get_val] at hc
  exact ⟨h, for_render_non_array_is_render_error "name" "array" [] _ h⟩

/-- Claim C4: rendering a for directive whose source identifier is bound
to a zero-length Array succeeds with output Some of the empty string, not
None, and leaves the context unchanged. -/
theorem for_render_empty_array_empty_string (v a : String) (inner : List Node)
    (ctx : Context) (h : ctx.get_val a = some (Value.Array [])) :
    renderNode (Node.forN v a inner) ctx = (.ok (some ""), ctx) := by
  have hga : get_array ctx a = .ok [] := by
    unfold get_array
    rw [h]
  simp [renderNode, hga, forLoopGo]

/-- Witness for claim C4 at a concrete input: `xs` bound to the empty
Array. -/
theorem for_render_empty_array_empty_string_witness :
    Context.get_val [("xs", Value.Array [])] "xs" = some (Value.Array [])
    ∧ renderNode (Node.forN "x" "xs" [Node.text "hi"]) [("xs", Value.Array [])]
      = (.ok (some ""), [("xs", Value.Array [])]) :=
  ⟨rfl, for_render_empty_array_empty_string "x" "xs" [Node.text "hi"] _ rfl⟩

/-- The iteration of the render-time algorithm of spec section 4.5, written
from the spec words for comparison with the source embedding: for each
element in original order, bind the loop variable name to that element in
the context (create or overwrite), render the pre-parsed body against the
context now reflecting this binding, and append the body output (or empty
text if it produced none) to the accumulator. -/
def forDirectiveSpecGo (var_name : String) (body : List Node) :
    List Value → Context → String → (Except Error (Option String)) × Context
  | [], ctx, acc => (.ok (some acc), ctx)
  | x :: rest, ctx, acc =>
      match renderTmpl body (ctx.set_val var_name x) with
      | (.error e, c') => (.error e, c')
      | (.ok out, c') => forDirectiveSpecGo var_name body rest c' (acc ++ out.getD "")

/-- The render-time algorithm of spec section 4.5 steps 2 to 4, written
from the spec words: given the cloned elements of the source Array, run
the iteration starting from an empty-string accumulator and return the
accumulator as the directive output. -/
def forDirectiveSpec (var_name : String) (body : List Node) (xs : List Value)
    (ctx : Context) : (Except Error (Option String)) × Context :=
  forDirectiveSpecGo var_name body xs ctx ""

/-- The spec iteration with an arbitrary starting accumulator agrees with
the source loop, the accumulator prepended. -/
theorem forDirectiveSpecGo_eq (v : String) (body : List Node) (xs : List Value) :
    ∀ (ctx : Context) (acc : String),
      forDirectiveSpecGo v body xs ctx acc =
        match forLoopGo (renderTmpl body) v xs ctx with
        | (.error e, c) => (.error e, c)
        | (.ok s, c) => (.ok (some (acc ++ s)), c) := by
  induction xs with
  | nil =>
      intro ctx acc
      simp [forDirectiveSpecGo, forLoopGo, String.append_empty]
  | cons x rest ih =>
      intro ctx acc
      simp only [forDirectiveSpecGo, forLoopGo]
      cases hr : renderTmpl body (ctx.set_val v x) with
      | mk r c' =>
        cases r with
        | error e => simp
        | ok s =>
          simp only [ih]
          cases hf : forLoopGo (renderTmpl body) v rest c' with
          | mk r2 c'' =>
            cases r2 with
            | error e => simp
            | ok s2 => simp [String.append_assoc]

/-- Claim C3: for every context binding the source identifier to an Array,
rendering the for directive equals the spec algorithm: clone the elements,
then for each element in original order bind the loop variable, render the
pre-parsed body against the updated context, and append the body output
(or empty text) to an accumulator starting as the empty string, returning
the accumulator as the directive output. -/
theorem for_render_eq_spec_algorithm (v a : String) (inner : List Node)
    (ctx : Context) (xs : List Value) (h : ctx.get_val a = some (Value.Array xs)) :
    renderNode (Node.forN v a inner) ctx = forDirectiveSpec v inner xs ctx := by
  have hga : get_array ctx a = .ok xs := by
    unfold get_array
    rw [h]
  unfold forDirectiveSpec
  rw [forDirectiveSpecGo_eq]
  simp only [renderNode, hga]
  cases forLoopGo (renderTmpl inner) v xs ctx with
  | mk r c =>
    cases r with
    | error e => simp
    | ok s => simp [String.empty_append]

/-- Witness for claim C3 at a concrete input. -/
theorem for_render_eq_spec_algorithm_witness :
    Context.get_val [("xs", Value.Array [Value.Num 1, Value.Str "b"])] "xs"
      = some (Value.Array [Value.Num 1, Value.Str "b"])
    ∧ renderNode (Node.forN "x" "xs" [Node.output "x"])
        [("xs", Value.Array [Value.Num 1, Value.Str "b"])]
      = forDirectiveSpec "x" [Node.output "x"] [Value.Num 1, Value.Str "b"]
        [("xs", Value.Array [Value.Num 1, Value.Str "b"])] :=
  ⟨rfl, for_render_eq_spec_algorithm "x" "xs" [Node.output "x"] _ _ rfl⟩

/-- Counterexample to claim C5: a for directive over a non-empty Array
whose body is an inner for directive reusing the same loop-variable name.
The render succeeds, but afterwards the loop variable is bound to the last
element of the inner Array (Num 9), not to the last element of the
iterated Array (Num 2). -/
theorem for_render_loop_var_not_last_counterexample :
    (renderNode (Node.forN "v" "a" [Node.forN "v" "b" []])
        [("a", Value.Array [Value.Num 1, Value.Num 2]),
         ("b", Value.Array [Value.Num 9])]).1
      = .ok (some "")
    ∧ (renderNode (Node.forN "v" "a" [Node.forN "v" "b" []])
        [("a", Value.Array [Value.Num 1, Value.Num 2]),
         ("b", Value.Array [Value.Num 9])]).2.get_val "v"
      = some (Value.Num 9)
    ∧ some (Value.Num 9) ≠ some (Value.Num 2) := by
  refine ⟨rfl, rfl, ?_⟩
  intro hc
  have h2 := Option.some.inj hc
  rw [Value.Num.injEq] at h2
  exact absurd h2 (by norm_num)

/-- A successful source loop over a non-empty list leaves the loop
variable bound to the last element, provided each body run preserves the
binding of the loop variable. -/
theorem forLoopGo_ok_last (v : String) (body : List Node)
    (hbody : ∀ c : Context, ((renderTmpl body c).2).get_val v = c.get_val v) :
    ∀ (xs : List Value) (x : Value) (ctx c2 : Context) (s : String),
      forLoopGo (renderTmpl body) v (xs ++ [x]) ctx = (.ok s, c2) →
      c2.get_val v = some x := by
  intro xs
  induction xs with
  | nil =>
      intro x ctx c2 s h
      simp only [List.nil_append, forLoopGo] at h
      cases hr : renderTmpl body (ctx.set_val v x) with
      | mk r c' =>
        rw [hr] at h
        cases r with
        | error e => simp at h
        | ok so =>
          simp [forLoopGo] at h
          have hv := hbody (ctx.set_val v x)
          rw [hr] at hv
          rw [← h.2, hv, Context.get_set_self]
  | cons y rest ih =>
      intro x ctx c2 s h
      simp only [List.cons_append, forLoopGo] at h
      split at h
      · simp at h
      · split at h
        · simp at h
        · next s2 c4 heq2 =>
            simp only [Prod.mk.injEq] at h
            rw [← h.2]
            exact ih x _ c4 s2 (by simpa using heq2)

/-- Claim C5 as amended: after a for directive renders successfully over a
non-empty Array, the loop variable binding is not removed from the
context; it holds the value the final body invocation left it at, which is
the last element of the iterated Array whenever the body does not itself
rebind the loop variable. -/
theorem for_render_loop_var_persists (v a : String) (inner : List Node)
    (ctx c2 : Context) (xs : List Value) (x : Value) (out : Option String)
    (harr : ctx.get_val a = some (Value.Array (xs ++ [x])))
    (hbody : ∀ c : Context, ((renderTmpl inner c).2).get_val v = c.get_val v)
    (hok : renderNode (Node.forN v a inner) ctx = (.ok out, c2)) :
    c2.get_val v = some x := by
  have hga : get_array ctx a = .ok (xs ++ [x]) := by
    unfold get_array
    rw [harr]
  simp only [renderNode, hga] at hok
  cases hf : forLoopGo (renderTmpl inner) v (xs ++ [x]) ctx with
  | mk r c' =>
    rw [hf] at hok
    cases r with
    | error e => simp at hok
    | ok s =>
      simp only [Prod.mk.injEq] at hok
      rw [← hok.2]
      exact forLoopGo_ok_last v inner hbody xs x ctx c' s hf

/-- Witness for the amended claim C5 at a concrete input: a literal-text
body, which does not rebind the loop variable. -/
theorem for_render_loop_var_persists_witness :
    Context.get_val [("xs", Value.Array [Value.Num 1, Value.Num 2])] "xs"
      = some (Value.Array ([Value.Num 1] ++ [Value.Num 2]))
    ∧ (∀ c : Context, ((renderTmpl [Node.text "hi"] c).2).get_val "x" = c.get_val "x")
    ∧ Context.get_val
        [("xs", Value.Array [Value.Num 1, Value.Num 2]), ("x", Value.Num 2)] "x"
      = some (Value.Num 2) := by
  refine ⟨rfl, fun c => rfl, ?_⟩
  exact for_render_loop_var_persists "x" "xs" [Node.text "hi"]
    [("xs", Value.Array [Value.Num 1, Value.Num 2])]
    [("xs", Value.Array [Value.Num 1, Value.Num 2]), ("x", Value.Num 2)]
    [Value.Num 1] (Value.Num 2) (some "hihi") rfl (fun c => rfl) rfl

/-- Counterexample to claim C6: a four-token argument sequence, not of the
exact three-token shape, for which for_block construction nevertheless
succeeds, because the argument iterator is never advanced past the third
token and trailing tokens are ignored. -/
theorem for_block_ignores_trailing_tokens :
    for_block "for"
        [Token.Identifier "x", Token.Identifier "in", Token.Identifier "y",
         Token.Identifier "z"]
        [] ⟨[], [], ErrorMode.Warn⟩
      = .ok (Node.forN "x" "y" [])
    ∧ [Token.Identifier "x", Token.Identifier "in", Token.Identifier "y",
       Token.Identifier "z"].length ≠ 3 :=
  ⟨rfl, by decide⟩

/-- Claim C6 as amended: the for-block header validation examines only the
first three argument tokens.  Provided the body parses (a body parse error
would take precedence, see claim C7), construction succeeds whenever the
arguments start with identifier, literal "in", identifier, ignoring any
trailing tokens; and whenever they do not, it fails with the parser error
naming the unexpected token: the message interpolates the Debug form of
the offending argument-iterator item, Some of the offending token or None
when the arguments are exhausted, exactly as for_block.rs lines 50-64
format it. -/
theorem for_block_first_three_tokens (t : String) (args : List Token)
    (body : List Element) (opts : LiquidOptions) (inner : List Node)
    (hbody : parseElements body opts = .ok inner) :
    (∀ x y rest,
      args = Token.Identifier x :: Token.Identifier "in" ::
        Token.Identifier y :: rest →
      for_block t args body opts = .ok (Node.forN x y inner))
    ∧ ((¬ ∃ x y rest,
        args = Token.Identifier x :: Token.Identifier "in" ::
          Token.Identifier y :: rest) →
      (args = []
        ∧ for_block t args body opts
          = .error (.Parser "Expected an identifier, found None"))
      ∨ (∃ tk ts, args = tk :: ts ∧ (∀ s, tk ≠ Token.Identifier s)
        ∧ for_block t args body opts
          = .error (.Parser ("Expected an identifier, found Some(" ++
              debugToken tk ++ ")")))
      ∨ (∃ x, args = [Token.Identifier x]
        ∧ for_block t args body opts
          = .error (.Parser "Expected \x27in\x27, found None"))
      ∨ (∃ x tk ts, args = Token.Identifier x :: tk :: ts
        ∧ tk ≠ Token.Identifier "in"
        ∧ for_block t args body opts
          = .error (.Parser ("Expected \x27in\x27, found Some(" ++
              debugToken tk ++ ")")))
      ∨ (∃ x, args = [Token.Identifier x, Token.Identifier "in"]
        ∧ for_block t args body opts
          = .error (.Parser "Expected an identifier, found None"))
      ∨ (∃ x tk ts,
        args = Token.Identifier x :: Token.Identifier "in" :: tk :: ts
        ∧ (∀ s, tk ≠ Token.Identifier s)
        ∧ for_block t args body opts
          = .error (.Parser ("Expected an identifier, found Some(" ++
              debugToken tk ++ ")")))) := by
  have hfb : for_block t args body opts = forBlockHeader args inner := by
    unfold for_block
    rw [hbody]
  constructor
  · rintro x y rest rfl
    rw [hfb]
    simp [forBlockHeader]
  · intro hne
    rw [hfb]
    cases args with
    | nil => exact Or.inl ⟨rfl, rfl⟩
    | cons t1 rest1 =>
      cases t1 with
      | StringLiteral s =>
          exact Or.inr (Or.inl ⟨_, _, rfl, fun s2 hh => Token.noConfusion hh, rfl⟩)
      | NumberLiteral n =>
          exact Or.inr (Or.inl ⟨_, _, rfl, fun s2 hh => Token.noConfusion hh, rfl⟩)
      | Pipe => exact Or.inr (Or.inl ⟨_, _, rfl, fun s2 hh => Token.noConfusion hh, rfl⟩)
      | Dot => exact Or.inr (Or.inl ⟨_, _, rfl, fun s2 hh => Token.noConfusion hh, rfl⟩)
      | Colon => exact Or.inr (Or.inl ⟨_, _, rfl, fun s2 hh => Token.noConfusion hh, rfl⟩)
      | Identifier x =>
        cases rest1 with
        | nil => exact Or.inr (Or.inr (Or.inl ⟨x, rfl, rfl⟩))
        | cons t2 rest2 =>
          by_cases h2 : t2 = Token.Identifier "in"
          · subst h2
            cases rest2 with
            | nil =>
                exact Or.inr (Or.inr (Or.inr (Or.inr (Or.inl ⟨x, rfl, rfl⟩))))
            | cons t3 rest3 =>
              cases t3 with
              | Identifier y => exact absurd ⟨x, y, rest3, rfl⟩ hne
              | StringLiteral s =>
                  exact Or.inr (Or.inr (Or.inr (Or.inr (Or.inr
                    ⟨x, _, rest3, rfl, fun s2 hh => Token.noConfusion hh, rfl⟩))))
              | NumberLiteral n =>
                  exact Or.inr (Or.inr (Or.inr (Or.inr (Or.inr
                    ⟨x, _, rest3, rfl, fun s2 hh => Token.noConfusion hh, rfl⟩))))
              | Pipe =>
                  exact Or.inr (Or.inr (Or.inr (Or.inr (Or.inr
                    ⟨x, _, rest3, rfl, fun s2 hh => Token.noConfusion hh, rfl⟩))))
              | Dot =>
                  exact Or.inr (Or.inr (Or.inr (Or.inr (Or.inr
                    ⟨x, _, rest3, rfl, fun s2 hh => Token.noConfusion hh, rfl⟩))))
              | Colon =>
                  exact Or.inr (Or.inr (Or.inr (Or.inr (Or.inr
                    ⟨x, _, rest3, rfl, fun s2 hh => Token.noConfusion hh, rfl⟩))))
          · exact Or.inr (Or.inr (Or.inr (Or.inl
              ⟨x, t2, rest2, rfl, h2, by simp [forBlockHeader, h2]⟩)))
/-- Witness for the amended claim C6 at concrete inputs: the exact
three-token header succeeds, and the header of `for x foo bar` (missing
the literal "in") fails with the parser error naming the token foo. -/
theorem for_block_first_three_tokens_witness :
    parseElements [] ⟨[], [], ErrorMode.Warn⟩ = .ok []
    ∧ for_block "for"
        [Token.Identifier "x", Token.Identifier "in", Token.Identifier "y"]
        [] ⟨[], [], ErrorMode.Warn⟩ = .ok (Node.forN "x" "y" [])
    ∧ for_block "for"
        [Token.Identifier "x", Token.Identifier "foo", Token.Identifier "bar"]
        [] ⟨[], [], ErrorMode.Warn⟩
      = .error (.Parser "Expected \x27in\x27, found Some(Identifier(\"foo\"))") := by
  refine ⟨rfl, ?_, ?_⟩
  · exact (for_block_first_three_tokens "for" _ [] _ [] rfl).1 "x" "y" [] rfl
  · have hne : ¬ ∃ x y rest,
        [Token.Identifier "x", Token.Identifier "foo", Token.Identifier "bar"]
          = Token.Identifier x :: Token.Identifier "in" ::
            Token.Identifier y :: rest := by
      rintro ⟨x, y, rest, h⟩
      have h2 := (List.cons.inj h).2
      have h3 := (List.cons.inj h2).1
      exact absurd (Token.Identifier.inj h3) (by decide)
    have hd := (for_block_first_three_tokens "for"
      [Token.Identifier "x", Token.Identifier "foo", Token.Identifier "bar"]
      [] ⟨[], [], ErrorMode.Warn⟩ [] rfl).2 hne
    rcases hd with ⟨h1, _⟩ | ⟨tk, ts, heq, hni, _⟩ | ⟨x, heq, _⟩ |
      ⟨x, tk, ts, heq, _, hmsg⟩ | ⟨x, heq, _⟩ | ⟨x, tk, ts, heq, _, _⟩
    · simp at h1
    · exact absurd ((List.cons.inj heq).1.symm) (hni "x")
    · simp at heq
    · have ht := (List.cons.inj ((List.cons.inj heq).2)).1
      rw [← ht] at hmsg
      exact hmsg
    · have h3 := (List.cons.inj ((List.cons.inj heq).2)).1
      exact absurd (Token.Identifier.inj h3) (by decide)
    · have h3 := (List.cons.inj ((List.cons.inj heq).2)).1
      exact absurd (Token.Identifier.inj h3) (by decide)

/-- Counterexample to claim C7: with both the header and the body
malformed, for_block returns the body parse error, not the header error,
because the body is parsed first (for_block.rs line 48 precedes the header
matches of lines 50-64). -/
theorem for_block_body_error_precedes_header_error :
    for_block "for"
        [Token.Identifier "x", Token.Identifier "foo", Token.Identifier "bar"]
        [Element.block "bogus" [] []] ⟨[], [], ErrorMode.Warn⟩
      = .error (.Parser "no such block: bogus")
    ∧ Error.Parser "no such block: bogus"
      ≠ Error.Parser "Expected \x27in\x27, found Some(Identifier(\"foo\"))" :=
  ⟨rfl, by decide⟩

/-- Claim C7 as amended: for_block parses the nested body first,
unconditionally, before any header validation; every body parse error is
returned as is, whatever the argument tokens, so a malformed body is
parsed (and rejected) even under an invalid header. -/
theorem for_block_body_parsed_first (t : String) (args : List Token)
    (body : List Element) (opts : LiquidOptions) (e : Error)
    (hbody : parseElements body opts = .error e) :
    for_block t args body opts = .error e := by
  unfold for_block
  rw [hbody]

/-- Witness for the amended claim C7 at a concrete input. -/
theorem for_block_body_parsed_first_witness :
    parseElements [Element.block "nope" [] []] ⟨[], [], ErrorMode.Warn⟩
      = .error (.Parser "no such block: nope")
    ∧ for_block "for" [Token.Identifier "q"] [Element.block "nope" [] []]
        ⟨[], [], ErrorMode.Warn⟩ = .error (.Parser "no such block: nope") :=
  ⟨rfl, for_block_body_parsed_first "for" [Token.Identifier "q"] _ _ _ rfl⟩

/-- Claim C8: for every input text and options, the top-level parse entry
point tokenizes and then parses with the options obtained by inserting the
four built-in block constructors, and after that insertion the registry
maps "raw", "if", "for" and "comment" to the built-in constructors,
whatever (user) entries the registry held before. -/
theorem liquid_parse_inserts_builtins :
    (∀ (text : String) (options : LiquidOptions),
      liquid_parse text options =
        match tokenize text with
        | .error e => .error e
        | .ok elements => parseElements elements (insertBuiltins options))
    ∧ ∀ options : LiquidOptions,
        assocLookup (insertBuiltins options).blocks "raw" = some BlockRef.builtinRaw
        ∧ assocLookup (insertBuiltins options).blocks "if" = some BlockRef.builtinIf
        ∧ assocLookup (insertBuiltins options).blocks "for" = some BlockRef.builtinFor
        ∧ assocLookup (insertBuiltins options).blocks "comment"
            = some BlockRef.builtinComment := by
  refine ⟨fun text options => rfl, fun options => ⟨?_, ?_, ?_, ?_⟩⟩
  · simp only [insertBuiltins]
    rw [assocLookup_insert_ne _ _ _ _ (by decide),
        assocLookup_insert_ne _ _ _ _ (by decide),
        assocLookup_insert_ne _ _ _ _ (by decide),
        assocLookup_insert_self]
  · simp only [insertBuiltins]
    rw [assocLookup_insert_ne _ _ _ _ (by decide),
        assocLookup_insert_ne _ _ _ _ (by decide),
        assocLookup_insert_self]
  · simp only [insertBuiltins]
    rw [assocLookup_insert_ne _ _ _ _ (by decide),
        assocLookup_insert_self]
  · simp only [insertBuiltins]
    rw [assocLookup_insert_self]

/-- Claim C9: the error mode is inert.  Two options values equal on their
registries but with arbitrary (possibly different) error modes make
`liquid::parse` return the same result, and make the end-to-end
parse-and-render pipeline agree on every context. -/
theorem error_mode_inert (text : String) (o1 o2 : LiquidOptions)
    (hb : o1.blocks = o2.blocks) (ht : o1.tags = o2.tags) :
    liquid_parse text o1 = liquid_parse text o2
    ∧ ∀ ctx : Context, parseAndRender text o1 ctx = parseAndRender text o2 ctx := by
  obtain ⟨b1, t1, e1⟩ := o1
  obtain ⟨b2, t2, e2⟩ := o2
  dsimp only at hb ht
  subst hb
  subst ht
  exact ⟨rfl, fun ctx => rfl⟩

/-- Witness for claim C9 at a concrete input: options carrying a user
entry under the name "for", differing only in their error mode. -/
theorem error_mode_inert_witness :
    (LiquidOptions.mk [("for", BlockRef.user "mine")] [] ErrorMode.Strict).blocks
      = (LiquidOptions.mk [("for", BlockRef.user "mine")] [] ErrorMode.Lax).blocks
    ∧ (LiquidOptions.mk [("for", BlockRef.user "mine")] [] ErrorMode.Strict).tags
      = (LiquidOptions.mk [("for", BlockRef.user "mine")] [] ErrorMode.Lax).tags
    ∧ liquid_parse "hello"
        (LiquidOptions.mk [("for", BlockRef.user "mine")] [] ErrorMode.Strict)
      = liquid_parse "hello"
        (LiquidOptions.mk [("for", BlockRef.user "mine")] [] ErrorMode.Lax) :=
  ⟨rfl, rfl, (error_mode_inert "hello" _ _ rfl rfl).1⟩

/-- Counterexample to claim C10: a for directive whose body first rebinds
the loop variable through a nested same-named loop and then fails.  The
render fails, and in the final context the loop variable holds Num 9 from
the nested rebinding, not the element Num 1 the failing iteration had
bound it to. -/
theorem for_render_error_keeps_rebound_var_counterexample :
    (renderNode
        (Node.forN "v" "a" [Node.forN "v" "b" [], Node.forN "w" "missing" []])
        [("a", Value.Array [Value.Num 1]), ("b", Value.Array [Value.Num 9])]).1
      = .error (.Render "Tried to iterate over None, which is not supported.")
    ∧ (renderNode
        (Node.forN "v" "a" [Node.forN "v" "b" [], Node.forN "w" "missing" []])
        [("a", Value.Array [Value.Num 1]), ("b", Value.Array [Value.Num 9])]).2.get_val "v"
      = some (Value.Num 9)
    ∧ some (Value.Num 9) ≠ some (Value.Num 1) := by
  refine ⟨rfl, rfl, ?_⟩
  intro hc
  have h2 := Option.some.inj hc
  rw [Value.Num.injEq] at h2
  exact absurd h2 (by norm_num)

/-- A loop whose first iterations succeed continues from the context they
produced, prefixing their accumulated output. -/
theorem forLoopGo_ok_append (f : Context → (Except Error (Option String)) × Context)
    (v : String) :
    ∀ (pre rest : List Value) (ctx cmid : Context) (s : String),
      forLoopGo f v pre ctx = (.ok s, cmid) →
      forLoopGo f v (pre ++ rest) ctx =
        match forLoopGo f v rest cmid with
        | (.error e, c) => (.error e, c)
        | (.ok s2, c) => (.ok (s ++ s2), c) := by
  intro pre
  induction pre with
  | nil =>
      intro rest ctx cmid s h
      simp only [forLoopGo, Prod.mk.injEq] at h
      obtain ⟨h1, h2⟩ := h
      have hs := Except.ok.inj h1
      subst h2
      subst hs
      simp only [List.nil_append]
      cases hf : forLoopGo f v rest ctx with
      | mk r c =>
        cases r with
        | error e => simp
        | ok s2 => simp [String.empty_append]
  | cons i pre ih =>
      intro rest ctx cmid s h
      simp only [forLoopGo] at h
      split at h
      · simp at h
      · next so c' heq =>
          split at h
          · simp at h
          · next s2 c'' heq2 =>
              simp only [Prod.mk.injEq] at h
              obtain ⟨h1, h2⟩ := h
              have hs := Except.ok.inj h1
              subst h2
              have hrec := ih rest c' c'' s2 (by simpa using heq2)
              cases hf : forLoopGo f v rest c'' with
              | mk r3 c3 =>
                rw [hf] at hrec
                simp only [List.cons_append, forLoopGo, heq, List.append_eq]
                rw [hrec, ← hs]
                cases r3 with
                | error e => rfl
                | ok s3 => simp [String.append_assoc]

/-- Claim C10 as amended: when rendering the body fails at some iteration,
the error is returned immediately (there is no output), and the context is
not rolled back: the directive leaves the context exactly as the failing
body invocation left it, preserving the mutations of all earlier
iterations and of the failing invocation itself; the loop variable holds
the element of the failing iteration unless that body invocation itself
rebound it. -/
theorem for_render_error_no_rollback (v a : String) (inner : List Node)
    (ctx cmid cfail : Context) (pre suf : List Value) (x : Value) (e : Error)
    (s : String)
    (harr : ctx.get_val a = some (Value.Array (pre ++ x :: suf)))
    (hpre : forLoopGo (renderTmpl inner) v pre ctx = (.ok s, cmid))
    (hfail : renderTmpl inner (cmid.set_val v x) = (.error e, cfail)) :
    renderNode (Node.forN v a inner) ctx = (.error e, cfail) := by
  have hga : get_array ctx a = .ok (pre ++ x :: suf) := by
    unfold get_array
    rw [harr]
  have hx : forLoopGo (renderTmpl inner) v (x :: suf) cmid = (.error e, cfail) := by
    simp only [forLoopGo, hfail]
  have happ := forLoopGo_ok_append (renderTmpl inner) v pre (x :: suf) ctx cmid s hpre
  rw [hx] at happ
  simp only [renderNode, hga]
  rw [happ]

/-- Witness for the amended claim C10 at a concrete input: the source
Array holds an empty Array and then Num 2, the body iterates the loop
variable itself, so the first iteration succeeds and the second fails. -/
theorem for_render_error_no_rollback_witness :
    Context.get_val [("a", Value.Array [Value.Array [], Value.Num 2])] "a"
      = some (Value.Array ([Value.Array []] ++ Value.Num 2 :: []))
    ∧ forLoopGo (renderTmpl [Node.forN "w" "v" []]) "v" [Value.Array []]
        [("a", Value.Array [Value.Array [], Value.Num 2])]
      = (.ok "",
         [("a", Value.Array [Value.Array [], Value.Num 2]), ("v", Value.Array [])])
    ∧ renderTmpl [Node.forN "w" "v" []]
        (Context.set_val
          [("a", Value.Array [Value.Array [], Value.Num 2]), ("v", Value.Array [])]
          "v" (Value.Num 2))
      = (.error (.Render "Tried to iterate over Some(Num(2.0)), which is not supported."),
         [("a", Value.Array [Value.Array [], Value.Num 2]), ("v", Value.Num 2)])
    ∧ renderNode (Node.forN "v" "a" [Node.forN "w" "v" []])
        [("a", Value.Array [Value.Array [], Value.Num 2])]
      = (.error (.Render "Tried to iterate over Some(Num(2.0)), which is not supported."),
         [("a", Value.Array [Value.Array [], Value.Num 2]), ("v", Value.Num 2)]) :=
  ⟨rfl, rfl, rfl,
    for_render_error_no_rollback "v" "a" [Node.forN "w" "v" []]
      [("a", Value.Array [Value.Array [], Value.Num 2])]
      [("a", Value.Array [Value.Array [], Value.Num 2]), ("v", Value.Array [])]
      [("a", Value.Array [Value.Array [], Value.Num 2]), ("v", Value.Num 2)]
      [Value.Array []] [] (Value.Num 2)
      (.Render "Tried to iterate over Some(Num(2.0)), which is not supported.")
      "" rfl rfl rfl⟩
